import Mathlib

/-!
Verification development for the telegram-channel-duplicate repository.

We shallowly embed the message-processing pipeline of the repository in Lean:
the filter engine (src/filters.py), the text transformer (src/transformer.py),
and the dispatch / album-aggregation logic (src/duplicator.py), together with
the attribute surface of the configuration class (src/config.py).

Python regular-expression engines are not re-implemented: a compiled pattern
is embedded as its source string together with an abstract search (resp.
substitution) function, exactly the interface the pipeline code uses.
Python string truthiness (None and "" are falsy) is modelled explicitly.
-/

namespace Dup

/-- A single-quote character as a string (used in Python f-string reasons). -/
def sq : String := String.singleton (Char.ofNat 39)

/-- Whether `needle` occurs as a contiguous run inside `hay`. -/
def subListOf (needle hay : List Char) : Bool :=
  match hay with
  | [] => needle.isEmpty
  | _ :: t => needle.isPrefixOf hay || subListOf needle t

/-- Python substring test `needle in hay` (case sensitive). -/
def strContains (hay needle : String) : Bool :=
  subListOf needle.toList hay.toList

/-- Python `s.lower()` as a character list (ASCII case folding). -/
def lowerList (s : String) : List Char :=
  s.toList.map Char.toLower

/-- Python string-option truthiness: `None` and `""` are falsy.
Returns `some s` exactly when the value is truthy. -/
def pyStrOpt (o : Option String) : Option String :=
  match o with
  | none => none
  | some s => if s = "" then none else some s

/-- Embedding of a telethon media object as read by the pipeline:
photos, documents (with the optional `file_name` attribute of the document),
web-page previews, and other media kinds. -/
inductive Media where
  | photo
  | document (file_name : Option String)
  | webpage
  | other
  deriving Repr, DecidableEq, Inhabited

/-- Embedding of the fields of a telethon `Message` read by the pipeline:
`id`, `grouped_id`, `text`, the optional `caption` attribute, whether
`fwd_from` is set, and the media object. -/
structure Msg where
  id : Nat
  grouped_id : Option Nat := none
  text : Option String := none
  caption : Option String := none
  fwd_from : Bool := false
  media : Option Media := none
  deriving Repr, DecidableEq, Inhabited

/-- `message.text or getattr(message, 'caption', None) or ""` without the
final default: the first truthy of text and caption, if any. -/
def msgEffOpt (m : Msg) : Option String :=
  (pyStrOpt m.text).orElse (fun _ => pyStrOpt m.caption)

/-- `message.text or getattr(message, 'caption', None) or ""`
(filters.py line 101, duplicator.py line 150). -/
def effText (m : Msg) : String :=
  (msgEffOpt m).getD ""

/-- A compiled regular expression as used by the filter: its source string
and an abstract search function (`pattern.search(text)` truthiness).
The repository compiles these with `re.IGNORECASE`. -/
structure CompiledPattern where
  pattern : String
  search : String → Bool

/-- The filter/dispatch configuration attributes read by `MessageFilter`
and by the skip-extension check of `ChannelDuplicator` (the duck-typed
surface of the `config` object those classes consume). -/
structure FilterConfig where
  ignore_forwarded : Bool
  require_keywords : List String
  negative_keywords : List String
  compiled_patterns : List CompiledPattern
  min_length : Nat
  max_length : Nat
  skip_file_extensions : List String

/-- `MessageFilter.is_forwarded` (filters.py lines 25-27):
`message.fwd_from is not None`. -/
def is_forwarded (m : Msg) : Bool :=
  m.fwd_from

/-- `MessageFilter.matches_required_keyword` (filters.py lines 29-45). -/
def matches_required_keyword (required : List String) (text : String) : Bool :=
  if required.isEmpty then
    true
  else if text = "" then
    false
  else
    required.any (fun keyword => strContains text keyword)

/-- `MessageFilter.matches_negative_keyword` (filters.py lines 47-59):
first configured keyword occurring case-insensitively in the text. -/
def matches_negative_keyword (keywords : List String) (text : String) :
    Option String :=
  if text = "" then
    none
  else
    let text_lower := lowerList text
    keywords.find? (fun keyword => subListOf (lowerList keyword) text_lower)

/-- `MessageFilter.matches_negative_pattern` (filters.py lines 61-72):
source string of the first compiled pattern whose search hits. -/
def matches_negative_pattern (patterns : List CompiledPattern)
    (text : String) : Option String :=
  if text = "" then
    none
  else
    (patterns.find? (fun p => p.search text)).map (fun p => p.pattern)

/-- `MessageFilter.check_length` (filters.py lines 74-90). -/
def check_length (min_length max_length : Nat) (text : String) : Bool :=
  let length := text.length
  if min_length > 0 && length < min_length then
    false
  else if max_length > 0 && length > max_length then
    false
  else
    true

/-- `MessageFilter.should_copy` (filters.py lines 92-125). -/
def should_copy (cfg : FilterConfig) (m : Msg) : Bool × String :=
  let text := effText m
  if cfg.ignore_forwarded && is_forwarded m then
    (false, "Message is forwarded")
  else if !matches_required_keyword cfg.require_keywords text then
    (false, "Missing required keyword")
  else
    match matches_negative_keyword cfg.negative_keywords text with
    | some kw => (false, "Matched negative keyword: " ++ sq ++ kw ++ sq)
    | none =>
      match matches_negative_pattern cfg.compiled_patterns text with
      | some pat => (false, "Matched negative pattern: " ++ sq ++ pat ++ sq)
      | none =>
        if !check_length cfg.min_length cfg.max_length text then
          (false, "Message length (" ++ toString text.length ++ ") outside limits")
        else
          (true, "")

/-! ### Transform engine (src/transformer.py) -/

/-- A compiled replacement rule as held in `TextTransformer._replacements`:
the pattern source and an abstract substitution function embedding
`pattern.sub(replacement, ·)` (the pattern is compiled with
`re.IGNORECASE | re.DOTALL` and replaces all non-overlapping matches).
The substitution may raise, which `transform` catches per rule. -/
structure CompiledRule where
  pattern : String
  sub : String → Except String String

/-- One iteration of the loop body of `TextTransformer.transform`
(transformer.py lines 57-66): apply the substitution, keeping the previous
string when it raises (the `except` branch only logs). -/
def applyRule (r : CompiledRule) (result : String) : String :=
  match r.sub result with
  | Except.ok new_result => new_result
  | Except.error _ => result

/-- The `for pattern, replacement in self._replacements` loop of
`TextTransformer.transform` (transformer.py lines 55-68). -/
def transformLoop (rules : List CompiledRule) (result : String) : String :=
  match rules with
  | [] => result
  | r :: rest => transformLoop rest (applyRule r result)

/-- `TextTransformer.transform` (transformer.py lines 42-68):
falsy input (`None` or `""`) is returned unchanged, otherwise every
compiled rule is applied in order to the running result. -/
def transform (rules : List CompiledRule) (text : Option String) :
    Option String :=
  match pyStrOpt text with
  | none => text
  | some t => some (transformLoop rules t)

/-! ### Dispatch / album aggregation (src/duplicator.py) -/

/-- `MEDIA_GROUP_WAIT_TIME` (duplicator.py line 22): the settle duration,
in seconds. -/
def MEDIA_GROUP_WAIT_TIME : ℚ := 1

/-- The album-aggregation state of `ChannelDuplicator`:
`media_groups` embeds the `defaultdict(list)` of buffered messages keyed by
`grouped_id`, and `tasks` embeds `_media_group_tasks`: for each group the
absolute time at which its currently scheduled task will fire (the task is
`asyncio.sleep(MEDIA_GROUP_WAIT_TIME)` started at creation), or `none` when
no live task exists for that group. -/
structure AggState where
  media_groups : Nat → List Msg
  tasks : Nat → Option ℚ

/-- The empty aggregator state (`defaultdict(list)` and `{}`). -/
def initAgg : AggState :=
  { media_groups := fun _ => [], tasks := fun _ => none }

/-- Aggregator events: a grouped message arriving at absolute time `t`
(duplicator.py lines 126-139), or the scheduled task for group `g` reaching
its wakeup time `t` (duplicator.py line 163). -/
inductive AggEvent where
  | arrive (g : Nat) (m : Msg) (t : ℚ)
  | fire (g : Nat) (t : ℚ)

/-- The grouped-message branch of `_handle_message` (duplicator.py lines
126-139): append to `_media_groups[grouped_id]`, cancel the existing task
for the group if any, and schedule a fresh task that will fire a full
`MEDIA_GROUP_WAIT_TIME` after now.  Cancellation of the old task is
modelled by overwriting its entry, so a cancelled task never fires. -/
def handleArrive (s : AggState) (g : Nat) (m : Msg) (t : ℚ) : AggState :=
  { media_groups := fun g2 =>
      if g2 = g then s.media_groups g ++ [m] else s.media_groups g2,
    tasks := fun g2 =>
      if g2 = g then some (t + MEDIA_GROUP_WAIT_TIME) else s.tasks g2 }

/-- The buffer-draining prefix of `_process_media_group_delayed`
(duplicator.py lines 163-169) as a state transition: when the sleep ends
at time `t` and the task is still the registered one (it was not cancelled
and replaced by a later arrival), pop `_media_groups[grouped_id]` and
`_media_group_tasks[grouped_id]` and emit the drained buffer for
processing; an empty buffer is dropped (`if not messages: return`).
A cancelled or never-scheduled wakeup changes nothing. -/
def aggStep (s : AggState) (e : AggEvent) : AggState × Option (Nat × List Msg) :=
  match e with
  | AggEvent.arrive g m t => (handleArrive s g m t, none)
  | AggEvent.fire g t =>
      if s.tasks g = some t then
        ({ media_groups := fun g2 => if g2 = g then [] else s.media_groups g2,
           tasks := fun g2 => if g2 = g then none else s.tasks g2 },
         if s.media_groups g = [] then none else some (g, s.media_groups g))
      else
        (s, none)

/-- Run the aggregator over a list of events, ignoring outputs. -/
def runAgg (s : AggState) (es : List AggEvent) : AggState :=
  match es with
  | [] => s
  | e :: rest => runAgg (aggStep s e).1 rest

/-- Time of the last arrival for group `g` in the event list, with
accumulator `acc` carrying the last arrival time seen so far. -/
def lastArriveAux (acc : Nat → Option ℚ) (es : List AggEvent) (g : Nat) :
    Option ℚ :=
  match es with
  | [] => acc g
  | AggEvent.arrive g2 _ t :: rest =>
      lastArriveAux (fun g3 => if g3 = g2 then some t else acc g3) rest g
  | AggEvent.fire _ _ :: rest => lastArriveAux acc rest g

/-- Time of the last arrival for group `g` in the event list, if any. -/
def lastArrive (es : List AggEvent) (g : Nat) : Option ℚ :=
  lastArriveAux (fun _ => none) es g

/-! ### Group processing (duplicator.py lines 161-216) -/

/-- Ascending order on message ids, the key of
`messages.sort(key=lambda m: m.id)` (duplicator.py line 172). -/
def msgLE (a b : Msg) : Prop := a.id ≤ b.id

instance : DecidableRel msgLE :=
  fun a b => inferInstanceAs (Decidable (a.id ≤ b.id))

instance : IsTotal Msg msgLE := ⟨fun a b => Nat.le_total a.id b.id⟩

instance : IsTrans Msg msgLE := ⟨fun _ _ _ => Nat.le_trans⟩

/-- `messages.sort(key=lambda m: m.id)`: a stable ascending sort by id
(Python list.sort is stable; insertion sort is as well). -/
def sortById (msgs : List Msg) : List Msg :=
  List.insertionSort msgLE msgs

/-- The processing part of `_process_media_group_delayed` after the buffer
has been drained (duplicator.py lines 168-216): sort by id, pick the first
message whose `text or caption` is truthy as caption source and filter
representative (falling back to the first sorted message), filter, and on
pass hand the sorted messages and the transformed caption to
`_send_media_group`.  Returns `none` when nothing is sent onward. -/
def processMediaGroup (cfg : FilterConfig) (rules : List CompiledRule)
    (msgs : List Msg) : Option (List Msg × Option String) :=
  match msgs with
  | [] => none
  | _ :: _ =>
    let sorted := sortById msgs
    let caption_msg := sorted.find? (fun m => (msgEffOpt m).isSome)
    let caption_text := caption_msg.bind msgEffOpt
    let filter_msg := caption_msg.getD (sorted.headD default)
    if (should_copy cfg filter_msg).1 then
      let transformed_caption :=
        match caption_text with
        | some t => transform rules (some t)
        | none => none
      some (sorted, transformed_caption)
    else
      none

/-! ### Send operations (duplicator.py lines 218-377) -/

/-- `_get_document_filename` (duplicator.py lines 257-269): the `file_name`
attribute of the document of a `MessageMediaDocument`, if any. -/
def get_document_filename (m : Msg) : Option String :=
  match m.media with
  | some (Media.document file_name) => file_name
  | _ => none

/-- `_should_skip_file` (duplicator.py lines 271-281). -/
def should_skip_file (skip_extensions : List String)
    (filename : Option String) : Bool :=
  match pyStrOpt filename with
  | none => false
  | some f =>
    if skip_extensions.isEmpty then
      false
    else
      skip_extensions.any (fun ext => (lowerList ext).isSuffixOf (lowerList f))

/-- A media object handed to `client.send_file`, identified by the message
it came from: `msg.photo`, `msg.document`, or downloaded bytes. -/
inductive FileRef where
  | photoOf (msgId : Nat)
  | documentOf (msgId : Nat)
  | bytesOf (msgId : Nat)
  deriving Repr, DecidableEq

/-- An outbound call to the telethon client made by the send operations. -/
inductive ClientCall where
  | sendMessage (text : String)
  | sendFile (files : List FileRef) (caption : Option String)
  deriving Repr, DecidableEq

/-- `_send_text_message` (duplicator.py lines 247-255): falsy text sends
nothing. -/
def sendTextMessage (text : Option String) : List ClientCall :=
  match pyStrOpt text with
  | none => []
  | some t => [ClientCall.sendMessage t]

/-- `_send_media_message` (duplicator.py lines 326-377), as the list of
client calls it makes.  `download_ok` is the outcome of
`client.download_media` in the fallback branch for other media kinds. -/
def sendMediaMessage (cfg : FilterConfig) (m : Msg) (caption : Option String)
    (download_ok : Bool) : List ClientCall :=
  if m.media = some Media.webpage then
    sendTextMessage caption
  else if should_skip_file cfg.skip_file_extensions (get_document_filename m) then
    []
  else
    match m.media with
    | some Media.photo => [ClientCall.sendFile [FileRef.photoOf m.id] caption]
    | some (Media.document _) => [ClientCall.sendFile [FileRef.documentOf m.id] caption]
    | _ =>
      if download_ok then
        [ClientCall.sendFile [FileRef.bytesOf m.id] caption]
      else
        sendTextMessage caption

/-- The file-collection loop of `_send_media_group` (duplicator.py lines
290-302): photos are kept, documents are kept unless their filename has a
skipped extension, all other items contribute nothing. -/
def collectGroupFiles (skip_extensions : List String) (msgs : List Msg) :
    List FileRef :=
  match msgs with
  | [] => []
  | m :: rest =>
    match m.media with
    | some Media.photo => FileRef.photoOf m.id :: collectGroupFiles skip_extensions rest
    | some (Media.document _) =>
      if should_skip_file skip_extensions (get_document_filename m) then
        collectGroupFiles skip_extensions rest
      else
        FileRef.documentOf m.id :: collectGroupFiles skip_extensions rest
    | _ => collectGroupFiles skip_extensions rest

/-- The send decision of `_send_media_group` (duplicator.py lines 290-315):
if every file was skipped, send the caption as text when truthy, else
nothing; otherwise send all collected files as one album with the caption. -/
def sendMediaGroupCalls (skip_extensions : List String) (msgs : List Msg)
    (caption : Option String) : List ClientCall :=
  let files := collectGroupFiles skip_extensions msgs
  if files.isEmpty then
    if (pyStrOpt caption).isSome then
      sendTextMessage caption
    else
      []
  else
    [ClientCall.sendFile files caption]

/-! ### Retry-on-rate-limit loops (duplicator.py lines 218-245, 283-324) -/

/-- An exception raised by an awaited telethon send call. -/
inductive PyExc where
  | floodWait (seconds : Nat)
  | chatWriteForbidden
  | otherExc (msg : String)
  deriving Repr, DecidableEq

/-- Outcome of one send attempt by the environment:
`none` means the awaited call returned normally. -/
abbrev AttemptOutcome := Option PyExc

/-- Observable actions of the retry loops: one execution of the guarded
send body, the `asyncio.sleep(e.seconds)` suspension, and the log lines of
the `except` branches. -/
inductive SendAct where
  | attempt
  | sleep (d : Nat)
  | logForbidden
  | logFailed
  deriving Repr, DecidableEq

/-- How a send operation concluded: the message was delivered, or the send
was abandoned after a caught non-rate-limit exception.  There is no
constructor for an escaping exception: every exception is caught. -/
inductive SendFate where
  | delivered
  | abandoned
  deriving Repr, DecidableEq

/-- `_send_to_target` (duplicator.py lines 218-245) run against a list of
attempt outcomes supplied by the environment, one per executed attempt:
a `FloodWaitError` sleeps for its wait time and recurses with the same
arguments, `ChatWriteForbiddenError` and any other exception are logged and
the send abandoned.  `none` as final fate means the environment list ran
out with the loop still retrying. -/
def sendToTargetRun (outcomes : List AttemptOutcome) :
    List SendAct × Option SendFate :=
  match outcomes with
  | [] => ([], none)
  | none :: _ => ([SendAct.attempt], some SendFate.delivered)
  | some (PyExc.floodWait d) :: rest =>
    let r := sendToTargetRun rest
    (SendAct.attempt :: SendAct.sleep d :: r.1, r.2)
  | some PyExc.chatWriteForbidden :: _ =>
    ([SendAct.attempt, SendAct.logForbidden], some SendFate.abandoned)
  | some (PyExc.otherExc _) :: _ =>
    ([SendAct.attempt, SendAct.logFailed], some SendFate.abandoned)

/-- The retry structure of `_send_media_group` (duplicator.py lines
289-324): `FloodWaitError` sleeps and recurses with the same arguments,
any other exception (including a forbidden write) is caught by the generic
`except` and the send abandoned. -/
def sendMediaGroupRun (outcomes : List AttemptOutcome) :
    List SendAct × Option SendFate :=
  match outcomes with
  | [] => ([], none)
  | none :: _ => ([SendAct.attempt], some SendFate.delivered)
  | some (PyExc.floodWait d) :: rest =>
    let r := sendMediaGroupRun rest
    (SendAct.attempt :: SendAct.sleep d :: r.1, r.2)
  | some PyExc.chatWriteForbidden :: _ =>
    ([SendAct.attempt, SendAct.logFailed], some SendFate.abandoned)
  | some (PyExc.otherExc _) :: _ =>
    ([SendAct.attempt, SendAct.logFailed], some SendFate.abandoned)

/-! ### The attribute surface of the Config class (src/config.py) -/

/-- Every attribute the `Config` class of src/config.py defines: the
instance attributes set in `__init__` (lines 14-39), its methods, and its
`@property` members (lines 60-126). -/
def configAttrs : List String :=
  ["api_id", "api_hash", "phone_number", "_config",
   "_validate_config", "_setup_logging",
   "target_channel", "source_channels",
   "my_channel_name", "my_username", "my_contact_username",
   "replacements",
   "negative_keywords", "negative_patterns",
   "ignore_forwarded", "min_length", "max_length",
   "get_template_vars"]

/-- The values carried by a `Config` instance that the filter and skip
checks can reach (the class's defined attributes of list-of-string and
scalar filter type). -/
structure ConfigPy where
  ignore_forwarded : Bool
  min_length : Nat
  max_length : Nat
  source_channels : List String
  negative_keywords : List String
  negative_patterns : List String

/-- The list-of-string attribute table of a `Config` instance: exactly the
list-valued members the class defines. -/
def configListAttrTable (c : ConfigPy) : List (String × List String) :=
  [("source_channels", c.source_channels),
   ("negative_keywords", c.negative_keywords),
   ("negative_patterns", c.negative_patterns)]

/-- Python attribute lookup on a `Config` instance for a list-of-string
attribute: a name the class does not define raises `AttributeError`. -/
def configGetListAttr (c : ConfigPy) (attr : String) :
    Except String (List String) :=
  match (configListAttrTable c).find? (fun p => p.1 = attr) with
  | some p => Except.ok p.2
  | none =>
    Except.error ("AttributeError: " ++ sq ++ "Config" ++ sq ++
      " object has no attribute " ++ sq ++ attr ++ sq)

/-- `MessageFilter.should_copy` run against an actual `Config` instance
(rather than the duck-typed surface it assumes): the access
`self.config.require_keywords` (filters.py line 34) is an attribute lookup
that may raise.  `compiled` embeds `self._compiled_patterns`, which the
constructor builds successfully from `config.negative_patterns`. -/
def should_copyOnConfig (c : ConfigPy) (compiled : List CompiledPattern)
    (m : Msg) : Except String (Bool × String) :=
  let text := effText m
  if c.ignore_forwarded && is_forwarded m then
    Except.ok (false, "Message is forwarded")
  else
    (configGetListAttr c "require_keywords").bind (fun required =>
      if !matches_required_keyword required text then
        Except.ok (false, "Missing required keyword")
      else
        match matches_negative_keyword c.negative_keywords text with
        | some kw => Except.ok (false, "Matched negative keyword: " ++ sq ++ kw ++ sq)
        | none =>
          match matches_negative_pattern compiled text with
          | some pat => Except.ok (false, "Matched negative pattern: " ++ sq ++ pat ++ sq)
          | none =>
            if !check_length c.min_length c.max_length text then
              Except.ok (false, "Message length (" ++ toString text.length ++ ") outside limits")
            else
              Except.ok (true, ""))

/-- `_should_skip_file` run against an actual `Config` instance: the access
`self.config.skip_file_extensions` (duplicator.py line 276) is an
attribute lookup that may raise. -/
def should_skip_fileOnConfig (c : ConfigPy) (filename : Option String) :
    Except String Bool :=
  match pyStrOpt filename with
  | none => Except.ok false
  | some f =>
    (configGetListAttr c "skip_file_extensions").bind (fun skip_extensions =>
      if skip_extensions.isEmpty then
        Except.ok false
      else
        Except.ok (skip_extensions.any
          (fun ext => (lowerList ext).isSuffixOf (lowerList f))))

/-! ### Specification-side definitions -/

/-- Check 1 of the spec's filter contract: forwarded messages. -/
def forwardedCheck (cfg : FilterConfig) (m : Msg) : Option (Bool × String) :=
  if cfg.ignore_forwarded && is_forwarded m then
    some (false, "Message is forwarded")
  else
    none

/-- Check 2: required keywords. -/
def requiredCheck (cfg : FilterConfig) (m : Msg) : Option (Bool × String) :=
  if !matches_required_keyword cfg.require_keywords (effText m) then
    some (false, "Missing required keyword")
  else
    none

/-- Check 3: negative keywords. -/
def negKeywordCheck (cfg : FilterConfig) (m : Msg) : Option (Bool × String) :=
  (matches_negative_keyword cfg.negative_keywords (effText m)).map
    (fun kw => (false, "Matched negative keyword: " ++ sq ++ kw ++ sq))

/-- Check 4: negative patterns. -/
def negPatternCheck (cfg : FilterConfig) (m : Msg) : Option (Bool × String) :=
  (matches_negative_pattern cfg.compiled_patterns (effText m)).map
    (fun pat => (false, "Matched negative pattern: " ++ sq ++ pat ++ sq))

/-- Check 5: length bounds. -/
def lengthCheck (cfg : FilterConfig) (m : Msg) : Option (Bool × String) :=
  if !check_length cfg.min_length cfg.max_length (effText m) then
    some (false, "Message length (" ++ toString (effText m).length ++ ") outside limits")
  else
    none

/-- The five checks in the fixed order the spec states. -/
def fiveChecks (cfg : FilterConfig) (m : Msg) : List (Option (Bool × String)) :=
  [forwardedCheck cfg m, requiredCheck cfg m, negKeywordCheck cfg m,
   negPatternCheck cfg m, lengthCheck cfg m]

/-- First-failure-wins (short-circuit) evaluation of an ordered check list:
the first check that produces a drop decision decides; if none does, pass
with an empty reason. -/
def firstFailure (checks : List (Option (Bool × String))) : Bool × String :=
  match checks with
  | [] => (true, "")
  | some d :: _ => d
  | none :: rest => firstFailure rest

/-- A nonempty string prefix keeps a concatenation nonempty. -/
theorem ne_empty_append (s t : String) (h : s.length ≠ 0) : s ++ t ≠ "" := by
  intro he
  apply h
  have hl := congrArg String.length he
  rw [String.length_append] at hl
  have h0 : ("" : String).length = 0 := rfl
  omega

/-- Appending on the right preserves a nonzero length. -/
theorem len_append_ne (a b : String) (h : a.length ≠ 0) : (a ++ b).length ≠ 0 := by
  rw [String.length_append]
  omega

/-- C10: the `FilterDecision` of `should_copy` has an empty reason exactly
when the decision is to copy: every drop carries a non-empty reason, and a
pass carries exactly the empty reason. -/
theorem should_copy_reason_empty_iff (cfg : FilterConfig) (m : Msg) :
    (should_copy cfg m).2 = "" ↔ (should_copy cfg m).1 = true := by
  unfold should_copy
  dsimp only
  split
  · simp
  · split
    · simp
    · split
      · simpa using fun he =>
          absurd he (ne_empty_append _ _ (len_append_ne _ _ (by decide)))
      · split
        · simpa using fun he =>
            absurd he (ne_empty_append _ _ (len_append_ne _ _ (by decide)))
        · split
          · simpa using fun he =>
              absurd he (ne_empty_append _ _ (len_append_ne _ _ (by decide)))
          · simp

/-- C10 witness: concrete evaluation of the equivalence. -/
theorem should_copy_reason_empty_iff_witness :
    (should_copy ⟨true, [], [], [], 0, 0, []⟩ { id := 1 }).2 = "" ↔
      (should_copy ⟨true, [], [], [], 0, 0, []⟩ { id := 1 }).1 = true :=
  should_copy_reason_empty_iff ⟨true, [], [], [], 0, 0, []⟩ { id := 1 }

/-- C3: `should_copy` evaluates the five checks in the fixed order
forwarded, required keyword, negative keyword, negative pattern, length,
returning the first failing check's drop decision (short-circuit); in
particular a forwarded message under `ignoreForwarded` is dropped with the
forwarded reason regardless of everything else. -/
theorem should_copy_is_firstFailure (cfg : FilterConfig) (m : Msg) :
    should_copy cfg m = firstFailure (fiveChecks cfg m)
    ∧ (cfg.ignore_forwarded = true → is_forwarded m = true →
        should_copy cfg m = (false, "Message is forwarded")) := by
  constructor
  · unfold should_copy fiveChecks forwardedCheck requiredCheck negKeywordCheck
      negPatternCheck lengthCheck
    dsimp only
    by_cases h1 : (cfg.ignore_forwarded && is_forwarded m) = true
    · simp [h1, firstFailure]
    · rw [Bool.not_eq_true] at h1
      by_cases h2 : (!matches_required_keyword cfg.require_keywords (effText m)) = true
      · simp [h1, h2, firstFailure]
      · rw [Bool.not_eq_true] at h2
        cases h3 : matches_negative_keyword cfg.negative_keywords (effText m) with
        | some kw => simp [h1, h2, h3, firstFailure]
        | none =>
          cases h4 : matches_negative_pattern cfg.compiled_patterns (effText m) with
          | some pat => simp [h1, h2, h3, h4, firstFailure]
          | none =>
            by_cases h5 : (!check_length cfg.min_length cfg.max_length (effText m)) = true
            · simp [h1, h2, h3, h4, h5, firstFailure]
            · rw [Bool.not_eq_true] at h5
              simp [h1, h2, h3, h4, h5, firstFailure]
  · intro hf hfw
    unfold should_copy
    dsimp only
    simp [hf, hfw, is_forwarded] at *
    simp [hfw]

/-- C3 witness: a forwarded message with `ignore_forwarded` set. -/
theorem should_copy_is_firstFailure_witness :
    should_copy ⟨true, [], [], [], 0, 0, []⟩ { id := 2, fwd_from := true } =
        firstFailure (fiveChecks ⟨true, [], [], [], 0, 0, []⟩ { id := 2, fwd_from := true })
    ∧ should_copy ⟨true, [], [], [], 0, 0, []⟩ { id := 2, fwd_from := true } =
        (false, "Message is forwarded") :=
  ⟨(should_copy_is_firstFailure _ _).1,
   (should_copy_is_firstFailure ⟨true, [], [], [], 0, 0, []⟩
      { id := 2, fwd_from := true }).2 rfl rfl⟩

/-- The transform loop is a left fold of rule application. -/
theorem transformLoop_eq_foldl :
    ∀ (rules : List CompiledRule) (t : String),
      transformLoop rules t =
        rules.foldl (fun current r => applyRule r current) t := by
  intro rules
  induction rules with
  | nil => intro t; rfl
  | cons r rest ih => intro t; simp [transformLoop, List.foldl, ih]

/-- C5: `transform` returns falsy input (absent or empty) unchanged, and on
any other input equals the left fold over the rules in configured order,
each rule acting on the output of the previous one.  Each rule application
is the abstract substitution `pattern.sub` of that compiled rule
(re.IGNORECASE | re.DOTALL, all non-overlapping matches replaced). -/
theorem transform_is_foldl (rules : List CompiledRule) :
    transform rules none = none
    ∧ transform rules (some "") = some ""
    ∧ ∀ t : String, t ≠ "" →
        transform rules (some t) =
          some (rules.foldl (fun current r => applyRule r current) t) := by
  refine ⟨rfl, rfl, ?_⟩
  intro t ht
  unfold transform
  have hp : pyStrOpt (some t) = some t := by simp [pyStrOpt, ht]
  rw [hp]
  dsimp only
  rw [transformLoop_eq_foldl]

/-- A concrete rule whose substitution succeeds (appends a bang). -/
def ruleW : CompiledRule :=
  { pattern := "a", sub := fun s => Except.ok (s ++ "!") }

/-- C5 witness: one rule applied to a nonempty input. -/
theorem transform_is_foldl_witness :
    transform [ruleW] (some "a") =
      some ([ruleW].foldl (fun current r => applyRule r current) "a") :=
  (transform_is_foldl [ruleW]).2.2 "a" (by decide)

/-- C9: a rule whose substitution raises on the current string is caught
and skipped — the running string is unchanged at that rule — and the
remaining rules are still applied to it; since every rule application is
guarded this way, `transform` (a total function) never propagates a rule
exception. -/
theorem transform_error_rule_skipped :
    ∀ (rules1 : List CompiledRule) (r : CompiledRule)
      (rules2 : List CompiledRule) (t e : String),
      r.sub (transformLoop rules1 t) = Except.error e →
      applyRule r (transformLoop rules1 t) = transformLoop rules1 t
      ∧ transformLoop (rules1 ++ r :: rules2) t =
          transformLoop rules2 (transformLoop rules1 t) := by
  intro rules1
  induction rules1 with
  | nil =>
    intro r rules2 t e h
    have h2 : r.sub t = Except.error e := h
    constructor
    · simp [transformLoop, applyRule, h2]
    · simp [transformLoop, applyRule, h2]
  | cons a rest ih =>
    intro r rules2 t e h
    have h2 : transformLoop (a :: rest) t = transformLoop rest (applyRule a t) := rfl
    rw [h2] at h
    have hmain := ih r rules2 (applyRule a t) e h
    constructor
    · rw [h2]
      exact hmain.1
    · simpa [transformLoop] using hmain.2

/-- A concrete rule whose substitution always raises. -/
def badRuleW : CompiledRule :=
  { pattern := "b", sub := fun _ => Except.error "boom" }

/-- C9 witness: the erroring rule is skipped and the rule after it runs. -/
theorem transform_error_rule_skipped_witness :
    applyRule badRuleW (transformLoop [] "a") = transformLoop [] "a"
    ∧ transformLoop ([] ++ badRuleW :: [ruleW]) "a" =
        transformLoop [ruleW] (transformLoop [] "a") :=
  transform_error_rule_skipped [] badRuleW [ruleW] "a" "boom" rfl

/-- C7: a single message carrying a document whose filename has a skipped
extension (case-insensitively) produces no client call at all from
`_send_media_message` — no media send and no text fallback; in particular
`"report.RAR"` is skipped under `skipFileExtensions=[".rar"]`. -/
theorem skip_document_not_sent :
    (∀ (cfg : FilterConfig) (m : Msg) (caption : Option String)
       (download_ok : Bool) (fn : Option String),
       m.media = some (Media.document fn) →
       should_skip_file cfg.skip_file_extensions fn = true →
       sendMediaMessage cfg m caption download_ok = [])
    ∧ should_skip_file [".rar"] (some "report.RAR") = true := by
  constructor
  · intro cfg m caption download_ok fn hm hs
    unfold sendMediaMessage
    simp [get_document_filename, hm, hs]
  · decide

/-- C7 witness: a concrete skipped document sends nothing. -/
theorem skip_document_not_sent_witness :
    sendMediaMessage ⟨true, [], [], [], 0, 0, [".rar"]⟩
        { id := 3, media := some (Media.document (some "report.RAR")) }
        (some "caption") false = [] :=
  skip_document_not_sent.1 ⟨true, [], [], [], 0, 0, [".rar"]⟩
    { id := 3, media := some (Media.document (some "report.RAR")) }
    (some "caption") false (some "report.RAR") rfl (by decide)

/-- The album items the C8 claim keeps: everything except items whose
document filename matches a skip-extension (the claim's exact wording;
compare with what the code keeps, `keepInGroup`). -/
def claimRemainingItems (skip_extensions : List String) (msgs : List Msg) :
    List Msg :=
  msgs.filter (fun m => !should_skip_file skip_extensions (get_document_filename m))

/-- An album item whose media is a web-page preview. -/
def webMsgW : Msg := { id := 7, media := some Media.webpage }

/-- C8 counterexample: for a one-item album whose media is a web-page
preview and an empty skip list, the claim's exclusion rule keeps the item
(its document filename matches no skip-extension), yet `_send_media_group`
makes no client call at all — the item is excluded although it does not
match a skip-extension, so the claim's "exactly" fails. -/
theorem sendGroup_excludes_exactly_counterexample :
    claimRemainingItems [] [webMsgW] = [webMsgW]
    ∧ sendMediaGroupCalls [] [webMsgW] none = [] := by
  constructor
  · decide
  · decide

/-- The album items the code keeps: photos, and documents whose filename
does not match a skip-extension; every other media kind is dropped. -/
def keepInGroup (skip_extensions : List String) (m : Msg) : Bool :=
  match m.media with
  | some Media.photo => true
  | some (Media.document _) =>
    !should_skip_file skip_extensions (get_document_filename m)
  | _ => false

/-- The file object the group send passes for a kept item. -/
def fileOf (m : Msg) : FileRef :=
  match m.media with
  | some Media.photo => FileRef.photoOf m.id
  | _ => FileRef.documentOf m.id

/-- The collection loop keeps exactly the photos and non-skipped
documents, in order. -/
theorem collectGroupFiles_eq (skip_extensions : List String) :
    ∀ msgs : List Msg,
      collectGroupFiles skip_extensions msgs =
        (msgs.filter (keepInGroup skip_extensions)).map fileOf := by
  intro msgs
  induction msgs with
  | nil => rfl
  | cons m rest ih =>
    cases hm : m.media with
    | none => simp [collectGroupFiles, keepInGroup, hm, ih]
    | some md =>
      cases md with
      | photo => simp [collectGroupFiles, keepInGroup, fileOf, hm, ih]
      | document fn =>
        by_cases hs : should_skip_file skip_extensions (get_document_filename m) = true
        · simp [collectGroupFiles, keepInGroup, hm, hs, ih]
        · rw [Bool.not_eq_true] at hs
          simp [collectGroupFiles, keepInGroup, fileOf, hm, hs, ih]
      | webpage => simp [collectGroupFiles, keepInGroup, hm, ih]
      | other => simp [collectGroupFiles, keepInGroup, hm, ih]

/-- C8 amended: send-group excludes the items whose document filename
matches a skip-extension and also every item that is neither a photo nor a
document; if nothing remains, the caption is sent as a text-only message
when non-empty and nothing is sent when it is empty or absent; otherwise
the remaining items are sent together as one grouped post carrying the
caption. -/
theorem sendGroup_amended (skip_extensions : List String) (msgs : List Msg)
    (caption : Option String) :
    collectGroupFiles skip_extensions msgs =
      (msgs.filter (keepInGroup skip_extensions)).map fileOf
    ∧ sendMediaGroupCalls skip_extensions msgs caption =
        (if msgs.filter (keepInGroup skip_extensions) = [] then
          match pyStrOpt caption with
          | some c => [ClientCall.sendMessage c]
          | none => []
        else
          [ClientCall.sendFile
            ((msgs.filter (keepInGroup skip_extensions)).map fileOf) caption]) := by
  refine ⟨collectGroupFiles_eq skip_extensions msgs, ?_⟩
  unfold sendMediaGroupCalls
  rw [collectGroupFiles_eq skip_extensions msgs]
  cases hf : msgs.filter (keepInGroup skip_extensions) with
  | nil =>
    cases hpc : pyStrOpt caption with
    | none => simp [sendTextMessage, hpc]
    | some c => simp [sendTextMessage, hpc]
  | cons a l => simp

/-- C6: for both `_send_to_target` and `_send_media_group`, each
rate-limit signal carrying wait `d` produces exactly one suspension of `d`
followed by one retry of the identical send; the first non-rate-limit
outcome ends the loop — success delivers, any exception is caught and the
send abandoned without retry (the rest of the environment is never
consulted), and the fate is always delivered-or-abandoned, never a
propagated error. -/
theorem send_retry_policy :
    ∀ (ds : List Nat) (o : AttemptOutcome) (rest : List AttemptOutcome),
      (∀ d, o ≠ some (PyExc.floodWait d)) →
      (sendToTargetRun ((ds.map (fun d => some (PyExc.floodWait d))) ++ o :: rest)
        = ((ds.map (fun d => [SendAct.attempt, SendAct.sleep d])).flatten
            ++ (sendToTargetRun (o :: rest)).1,
           (sendToTargetRun (o :: rest)).2))
      ∧ (sendMediaGroupRun ((ds.map (fun d => some (PyExc.floodWait d))) ++ o :: rest)
        = ((ds.map (fun d => [SendAct.attempt, SendAct.sleep d])).flatten
            ++ (sendMediaGroupRun (o :: rest)).1,
           (sendMediaGroupRun (o :: rest)).2))
      ∧ (∀ rest2, sendToTargetRun (o :: rest) = sendToTargetRun (o :: rest2)
          ∧ sendMediaGroupRun (o :: rest) = sendMediaGroupRun (o :: rest2))
      ∧ ((sendToTargetRun (o :: rest)).2 = some SendFate.delivered
          ∨ (sendToTargetRun (o :: rest)).2 = some SendFate.abandoned)
      ∧ ((sendMediaGroupRun (o :: rest)).2 = some SendFate.delivered
          ∨ (sendMediaGroupRun (o :: rest)).2 = some SendFate.abandoned) := by
  intro ds o rest ho
  have hsingle :
      ∀ rest2, sendToTargetRun (o :: rest2) = sendToTargetRun (o :: rest)
        ∧ sendMediaGroupRun (o :: rest2) = sendMediaGroupRun (o :: rest) := by
    intro rest2
    cases o with
    | none => exact ⟨rfl, rfl⟩
    | some exc =>
      cases exc with
      | floodWait d => exact absurd rfl (ho d)
      | chatWriteForbidden => exact ⟨rfl, rfl⟩
      | otherExc msg => exact ⟨rfl, rfl⟩
  refine ⟨?_, ?_, fun rest2 => ⟨(hsingle rest2).1.symm, (hsingle rest2).2.symm⟩, ?_, ?_⟩
  · induction ds with
    | nil => simp
    | cons d rest_ds ih =>
      simp only [List.map_cons, List.cons_append, List.flatten]
      rw [sendToTargetRun]
      rw [ih]
      simp
  · induction ds with
    | nil => simp
    | cons d rest_ds ih =>
      simp only [List.map_cons, List.cons_append, List.flatten]
      rw [sendMediaGroupRun]
      rw [ih]
      simp
  · cases o with
    | none => exact Or.inl rfl
    | some exc =>
      cases exc with
      | floodWait d => exact absurd rfl (ho d)
      | chatWriteForbidden => exact Or.inr rfl
      | otherExc msg => exact Or.inr rfl
  · cases o with
    | none => exact Or.inl rfl
    | some exc =>
      cases exc with
      | floodWait d => exact absurd rfl (ho d)
      | chatWriteForbidden => exact Or.inr rfl
      | otherExc msg => exact Or.inr rfl

/-- C6 witness: one flood signal of 3 seconds followed by a permanent
failure. -/
theorem send_retry_policy_witness :
    sendToTargetRun (([3].map (fun d => some (PyExc.floodWait d)))
        ++ some (PyExc.otherExc "x") :: [])
      = (([3].map (fun d => [SendAct.attempt, SendAct.sleep d])).flatten
          ++ (sendToTargetRun (some (PyExc.otherExc "x") :: [])).1,
         (sendToTargetRun (some (PyExc.otherExc "x") :: [])).2) :=
  (send_retry_policy [3] (some (PyExc.otherExc "x")) []
    (fun d h => by simp at h)).1

/-- C4: the `Config` class defines neither `require_keywords` nor
`skip_file_extensions`; consequently `should_copy` run against a real
`Config` instance hits an `AttributeError` at its required-keyword step on
every message that is not dropped by the forwarded check, and
`_should_skip_file` hits one on every truthy filename, so neither check
can complete normally. -/
theorem config_missing_attributes :
    configAttrs.contains "require_keywords" = false
    ∧ configAttrs.contains "skip_file_extensions" = false
    ∧ (∀ (c : ConfigPy) (compiled : List CompiledPattern) (m : Msg),
        (c.ignore_forwarded && is_forwarded m) = false →
        ∃ e, should_copyOnConfig c compiled m = Except.error e)
    ∧ (∀ (c : ConfigPy) (f : String), f ≠ "" →
        ∃ e, should_skip_fileOnConfig c (some f) = Except.error e) := by
  refine ⟨by decide, by decide, ?_, ?_⟩
  · intro c compiled m h
    refine ⟨"AttributeError: " ++ sq ++ "Config" ++ sq ++
      " object has no attribute " ++ sq ++ "require_keywords" ++ sq, ?_⟩
    unfold should_copyOnConfig
    dsimp only
    rw [h]
    rfl
  · intro c f hf
    refine ⟨"AttributeError: " ++ sq ++ "Config" ++ sq ++
      " object has no attribute " ++ sq ++ "skip_file_extensions" ++ sq, ?_⟩
    unfold should_skip_fileOnConfig
    have hp : pyStrOpt (some f) = some f := by simp [pyStrOpt, hf]
    rw [hp]
    rfl

/-- C4 witness: a non-forwarded message and a concrete filename both raise. -/
theorem config_missing_attributes_witness :
    (∃ e, should_copyOnConfig ⟨false, 0, 0, [], [], []⟩ [] { id := 1 } =
      Except.error e)
    ∧ (∃ e, should_skip_fileOnConfig ⟨false, 0, 0, [], [], []⟩ (some "a.rar") =
      Except.error e) :=
  ⟨config_missing_attributes.2.2.1 ⟨false, 0, 0, [], [], []⟩ [] { id := 1 } rfl,
   config_missing_attributes.2.2.2 ⟨false, 0, 0, [], [], []⟩ "a.rar" (by decide)⟩

/-- A truthy Python string is nonempty. -/
theorem pyStrOpt_ne_empty (o : Option String) (s : String)
    (h : pyStrOpt o = some s) : s ≠ "" := by
  unfold pyStrOpt at h
  cases o with
  | none => simp at h
  | some x =>
    by_cases hx : x = ""
    · rw [hx] at h
      simp at h
    · simp only [if_neg hx] at h
      rw [← Option.some.inj h]
      exact hx

/-- The effective text option of a message is nonempty when present. -/
theorem msgEffOpt_ne_empty (m : Msg) (s : String)
    (h : msgEffOpt m = some s) : s ≠ "" := by
  unfold msgEffOpt at h
  cases ht : pyStrOpt m.text with
  | some x =>
    rw [ht] at h
    have h2 : some x = some s := h
    rw [← Option.some.inj h2]
    exact pyStrOpt_ne_empty m.text x ht
  | none =>
    rw [ht] at h
    have h2 : pyStrOpt m.caption = some s := h
    exact pyStrOpt_ne_empty m.caption s h2

/-- The code's caption predicate (`text or caption` is truthy) agrees with
the spec's wording (the effective text is non-empty). -/
theorem msgEffOpt_isSome_eq (m : Msg) :
    (msgEffOpt m).isSome = (effText m != "") := by
  cases h : msgEffOpt m with
  | none => simp [effText, h]
  | some s =>
    have hs := msgEffOpt_ne_empty m s h
    simp [effText, h, hs]

/-- `find?` only depends on the predicate extensionally. -/
theorem find?_congrPred {α : Type} (p q : α → Bool) (hpq : ∀ x, p x = q x) :
    ∀ l : List α, l.find? p = l.find? q := by
  intro l
  induction l with
  | nil => rfl
  | cons a t ih =>
    by_cases hqa : q a = true
    · simp [List.find?, hpq a, hqa]
    · rw [Bool.not_eq_true] at hqa
      simp [List.find?, hpq a, hqa, ih]

/-- Sorting a nonempty buffer yields a nonempty list. -/
theorem sortById_ne_nil (m0 : Msg) (rest : List Msg) :
    sortById (m0 :: rest) ≠ [] := by
  intro hnil
  have hlen := (List.perm_insertionSort msgLE (m0 :: rest)).length_eq
  rw [show sortById (m0 :: rest) = List.insertionSort msgLE (m0 :: rest) from rfl] at hnil
  rw [hnil] at hlen
  simp at hlen

/-- If no buffered message has truthy text, the fallback head has none. -/
theorem headD_msgEffOpt_none (l : List Msg) (hne : l ≠ [])
    (hfind : l.find? (fun m => effText m != "") = none) :
    msgEffOpt (l.headD default) = none := by
  have hmem : l.headD default ∈ l := by
    cases l with
    | nil => exact absurd rfl hne
    | cons a t => exact List.mem_cons_self a t
  have hq := List.find?_eq_none.mp hfind _ hmem
  cases hcap : msgEffOpt (l.headD default) with
  | none => rfl
  | some s =>
    exfalso
    apply hq
    have hs := msgEffOpt_ne_empty _ _ hcap
    have he : effText (l.headD default) ≠ "" := by
      unfold effText
      rw [hcap]
      simpa using hs
    simpa using he

/-- The spec's representative of an album buffer: the first message in
ascending-id order whose effective text is non-empty, else the first
message in that order. -/
def representativeSpec (msgs : List Msg) : Msg :=
  ((sortById msgs).find? (fun m => effText m != "")).getD
    ((sortById msgs).headD default)

/-- C2: group processing sorts the buffer ascending by id; the filter and
the caption both use the spec's representative; the caption sent with the
album is the transform of the representative's text (none when the
representative has none); and when the filter drops the representative
nothing at all is handed to the group send. -/
theorem group_representative (cfg : FilterConfig) (rules : List CompiledRule)
    (msgs : List Msg) (h : msgs ≠ []) :
    (List.Sorted msgLE (sortById msgs) ∧ (sortById msgs).Perm msgs)
    ∧ ((should_copy cfg (representativeSpec msgs)).1 = false →
        processMediaGroup cfg rules msgs = none)
    ∧ ((should_copy cfg (representativeSpec msgs)).1 = true →
        processMediaGroup cfg rules msgs =
          some (sortById msgs,
            (msgEffOpt (representativeSpec msgs)).map
              (fun t => transformLoop rules t))) := by
  obtain ⟨m0, rest, hmsgs⟩ := List.exists_cons_of_ne_nil h
  subst hmsgs
  have hfind : (sortById (m0 :: rest)).find? (fun m => (msgEffOpt m).isSome)
      = (sortById (m0 :: rest)).find? (fun m => effText m != "") :=
    find?_congrPred _ _ msgEffOpt_isSome_eq _
  refine ⟨⟨List.sorted_insertionSort msgLE (m0 :: rest),
           List.perm_insertionSort msgLE (m0 :: rest)⟩, ?_, ?_⟩
  · intro hdrop
    unfold representativeSpec at hdrop
    unfold processMediaGroup
    dsimp only
    rw [hfind, hdrop]
    simp
  · intro hpass
    unfold representativeSpec at hpass
    unfold processMediaGroup
    dsimp only
    rw [hfind, hpass]
    simp only [if_true]
    unfold representativeSpec
    cases hq : (sortById (m0 :: rest)).find? (fun m => effText m != "") with
    | some mrep =>
      cases hcap : msgEffOpt mrep with
      | some s =>
        have hs : s ≠ "" := msgEffOpt_ne_empty _ _ hcap
        simp [hcap, transform, pyStrOpt, hs]
      | none =>
        exfalso
        have hqm := List.find?_some hq
        have he : effText mrep = "" := by simp [effText, hcap]
        rw [he] at hqm
        simp at hqm
    | none =>
      have hnone := headD_msgEffOpt_none (sortById (m0 :: rest))
        (sortById_ne_nil m0 rest) hq
      rw [List.headD_eq_head?] at hnone
      simp [hnone]

/-- C2 witness: a three-item album where only the middle id carries text. -/
theorem group_representative_witness :
    processMediaGroup ⟨false, [], [], [], 0, 0, []⟩ []
        [{ id := 3, media := some Media.photo },
         { id := 2, text := some "hello", media := some Media.photo },
         { id := 1, media := some Media.photo }] =
      some (sortById
        [{ id := 3, media := some Media.photo },
         { id := 2, text := some "hello", media := some Media.photo },
         { id := 1, media := some Media.photo }],
        (msgEffOpt (representativeSpec
          [{ id := 3, media := some Media.photo },
           { id := 2, text := some "hello", media := some Media.photo },
           { id := 1, media := some Media.photo }])).map
          (fun t => transformLoop [] t)) :=
  (group_representative ⟨false, [], [], [], 0, 0, []⟩ []
    [{ id := 3, media := some Media.photo },
     { id := 2, text := some "hello", media := some Media.photo },
     { id := 1, media := some Media.photo }]
    (by decide)).2.2 (by decide)

/-- Invariant propagation along any event list: whenever a group has a
live task, that task is scheduled exactly `MEDIA_GROUP_WAIT_TIME` after
the group's last arrival. -/
theorem runAgg_tasks_lastArrive :
    ∀ (es : List AggEvent) (s : AggState) (acc : Nat → Option ℚ),
      (∀ g ft, s.tasks g = some ft →
        acc g = some (ft - MEDIA_GROUP_WAIT_TIME)) →
      ∀ g ft, (runAgg s es).tasks g = some ft →
        lastArriveAux acc es g = some (ft - MEDIA_GROUP_WAIT_TIME) := by
  intro es
  induction es with
  | nil =>
    intro s acc hinv g ft hft
    exact hinv g ft hft
  | cons e rest ih =>
    intro s acc hinv g ft hft
    cases e with
    | arrive g2 m t =>
      have hstep : runAgg s (AggEvent.arrive g2 m t :: rest)
          = runAgg (handleArrive s g2 m t) rest := rfl
      rw [hstep] at hft
      have hla : lastArriveAux acc (AggEvent.arrive g2 m t :: rest) g
          = lastArriveAux (fun g3 => if g3 = g2 then some t else acc g3) rest g := rfl
      rw [hla]
      refine ih (handleArrive s g2 m t) _ ?_ g ft hft
      intro g3 ft3 h3
      unfold handleArrive at h3
      dsimp only at h3
      by_cases hg : g3 = g2
      · subst hg
        rw [if_pos rfl] at h3
        have h4 : t + MEDIA_GROUP_WAIT_TIME = ft3 := Option.some.inj h3
        rw [if_pos rfl, ← h4, add_sub_cancel_right]
      · rw [if_neg hg] at h3
        rw [if_neg hg]
        exact hinv g3 ft3 h3
    | fire g2 t =>
      have hla : lastArriveAux acc (AggEvent.fire g2 t :: rest) g
          = lastArriveAux acc rest g := rfl
      rw [hla]
      have hstep : runAgg s (AggEvent.fire g2 t :: rest)
          = runAgg (aggStep s (AggEvent.fire g2 t)).1 rest := rfl
      rw [hstep] at hft
      by_cases hguard : s.tasks g2 = some t
      · have h2 : (aggStep s (AggEvent.fire g2 t)).1
            = { media_groups := fun g3 => if g3 = g2 then [] else s.media_groups g3,
                tasks := fun g3 => if g3 = g2 then none else s.tasks g3 } := by
          simp [aggStep, hguard]
        rw [h2] at hft
        refine ih _ acc ?_ g ft hft
        intro g3 ft3 h3
        dsimp only at h3
        by_cases hg : g3 = g2
        · rw [if_pos hg] at h3
          exact absurd h3 (by simp)
        · rw [if_neg hg] at h3
          exact hinv g3 ft3 h3
      · have h2 : (aggStep s (AggEvent.fire g2 t)).1 = s := by
          simp [aggStep, hguard]
        rw [h2] at hft
        exact ih s acc hinv g ft hft

/-- C1: the aggregation state machine.  Each arrival for a group appends
to its buffer and unconditionally replaces the group's pending task with a
fresh one of the full duration `MEDIA_GROUP_WAIT_TIME`, so along any event
trace a live task always fires `MEDIA_GROUP_WAIT_TIME` after the group's
last arrival (quiet-period settle).  A firing task drains the buffer,
removes both the buffer and the task (processing the buffer at most once:
a second wakeup finds no task and does nothing), and an arrival for a
group whose buffer was drained starts a brand-new one-message buffer. -/
theorem album_settle_state_machine :
    (∀ (s : AggState) (g : Nat) (m : Msg) (t : ℚ),
      (aggStep s (AggEvent.arrive g m t)).1.tasks g
          = some (t + MEDIA_GROUP_WAIT_TIME)
      ∧ (aggStep s (AggEvent.arrive g m t)).1.media_groups g
          = s.media_groups g ++ [m]
      ∧ (aggStep s (AggEvent.arrive g m t)).2 = none)
    ∧ (∀ (es : List AggEvent) (g : Nat) (ft : ℚ),
        (runAgg initAgg es).tasks g = some ft →
        lastArrive es g = some (ft - MEDIA_GROUP_WAIT_TIME))
    ∧ (∀ (s : AggState) (g : Nat) (t : ℚ),
        s.tasks g = some t → s.media_groups g ≠ [] →
        (aggStep s (AggEvent.fire g t)).2 = some (g, s.media_groups g)
        ∧ (aggStep s (AggEvent.fire g t)).1.media_groups g = []
        ∧ (aggStep s (AggEvent.fire g t)).1.tasks g = none)
    ∧ (∀ (s : AggState) (g : Nat) (t : ℚ),
        s.tasks g = none → aggStep s (AggEvent.fire g t) = (s, none))
    ∧ (∀ (s : AggState) (g : Nat) (m : Msg) (t : ℚ),
        s.media_groups g = [] →
        (aggStep s (AggEvent.arrive g m t)).1.media_groups g = [m]) := by
  refine ⟨?_, ?_, ?_, ?_, ?_⟩
  · intro s g m t
    refine ⟨?_, ?_, rfl⟩
    · simp [aggStep, handleArrive]
    · simp [aggStep, handleArrive]
  · intro es g ft hft
    exact runAgg_tasks_lastArrive es initAgg (fun _ => none)
      (fun g2 ft2 h2 => by simp [initAgg] at h2) g ft hft
  · intro s g t hg hne
    refine ⟨?_, ?_, ?_⟩
    · simp [aggStep, hg, hne]
    · simp [aggStep, hg]
    · simp [aggStep, hg]
  · intro s g t hg
    simp [aggStep, hg]
  · intro s g m t hempty
    simp [aggStep, handleArrive, hempty]

/-- A concrete grouped message. -/
def wMsg : Msg := { id := 10, grouped_id := some 5, media := some Media.photo }

/-- A state with one buffered message and a task scheduled at time 2 for
group 5. -/
def aggStateW : AggState :=
  { media_groups := fun g => if g = 5 then [wMsg] else [],
    tasks := fun g => if g = 5 then some 2 else none }

/-- C1 witness: an arrival schedules at `arrival + MEDIA_GROUP_WAIT_TIME`,
a live task at its wakeup drains the group, a wakeup with no live task
does nothing. -/
theorem album_settle_state_machine_witness :
    lastArrive [AggEvent.arrive 5 wMsg 0] 5
        = some ((0 + MEDIA_GROUP_WAIT_TIME) - MEDIA_GROUP_WAIT_TIME)
    ∧ (aggStep aggStateW (AggEvent.fire 5 2)).2 = some (5, [wMsg])
    ∧ aggStep initAgg (AggEvent.fire 5 2) = (initAgg, none) :=
  ⟨album_settle_state_machine.2.1 [AggEvent.arrive 5 wMsg 0] 5
      (0 + MEDIA_GROUP_WAIT_TIME) rfl,
   (album_settle_state_machine.2.2.1 aggStateW 5 2 rfl (by decide)).1,
   album_settle_state_machine.2.2.2.1 initAgg 5 2 rfl⟩

end Dup
